import Mathlib

/-!
Verification development for the rgb-proxy-server repository
(src/controllers/api.ts and src/app.ts).

The TypeScript handlers are shallowly embedded: JSON-RPC parameter
containers become an inductive `JVal` of JavaScript values, the SQLite
tables and the three filesystem directories become explicit fields of a
`ServerState` record, and each JSON-RPC method becomes a pure Lean
function from a state and parameters to an `Except`-style outcome paired
with the successor state.
-/

set_option maxHeartbeats 1000000
set_option maxRecDepth 16384

namespace RgbProxy

/-- JavaScript runtime values that can appear in a parsed JSON-RPC
parameter container (JSON values plus `undefined`).  `jnonint` stands
abstractly for a number that is not an integer; its `ToNumber` is
non-integral and its `ToString` is rendered canonically as `"0.5"`. -/
inductive JVal where
  | jundef : JVal
  | jnull : JVal
  | jbool (b : Bool) : JVal
  | jnum (n : Int) : JVal
  | jnonint : JVal
  | jstr (s : String) : JVal
  | jarr (xs : List JVal) : JVal
  | jobj (fields : List (String × JVal)) : JVal
deriving Repr

/-- `typeof data === "object" && !Array.isArray(data) && data !== null`
(from `isDictionary` in api.ts), on the embedded value universe. -/
def isDictionary : JVal → Bool
  | JVal.jobj _ => true
  | _ => false

/-- `Boolean(data) === data` (from `isBoolean` in api.ts): holds exactly
for the two boolean values. -/
def isBooleanJ : JVal → Bool
  | JVal.jbool _ => true
  | _ => false

/-- `data === null`. -/
def isNullJ : JVal → Bool
  | JVal.jnull => true
  | _ => false

/-- JavaScript truthiness of an embedded value (`!x` negates this). -/
def truthy : JVal → Bool
  | JVal.jundef => false
  | JVal.jnull => false
  | JVal.jbool b => b
  | JVal.jnum n => n != 0
  | JVal.jnonint => true
  | JVal.jstr s => s != ""
  | JVal.jarr _ => true
  | JVal.jobj _ => true

/-- The characters ECMA-262 StringToNumber strips around a numeric
literal: the WhiteSpace and LineTerminator productions (TAB, LF, VT, FF,
CR, space, NBSP, the Unicode line/paragraph separators and ZWNBSP). -/
def jsWhitespaceChar (c : Char) : Bool :=
  c.toNat = 0x9 || c.toNat = 0xA || c.toNat = 0xB || c.toNat = 0xC ||
  c.toNat = 0xD || c.toNat = 0x20 || c.toNat = 0xA0 || c.toNat = 0x2028 ||
  c.toNat = 0x2029 || c.toNat = 0xFEFF

/-- Strip leading and trailing JavaScript whitespace. -/
def trimJsWs (cs : List Char) : List Char :=
  ((cs.dropWhile jsWhitespaceChar).reverse.dropWhile jsWhitespaceChar).reverse

/-- The value of one digit in the given radix, `none` for a non-digit. -/
def radixDigitVal (radix : Nat) (c : Char) : Option Nat :=
  let v :=
    if '0' ≤ c ∧ c ≤ '9' then some (c.toNat - 48)
    else if 'a' ≤ c ∧ c ≤ 'z' then some (c.toNat - 87)
    else if 'A' ≤ c ∧ c ≤ 'Z' then some (c.toNat - 55)
    else none
  match v with
  | some n => if n < radix then some n else none
  | none => none

/-- The value of a non-empty all-digit string in the given radix. -/
def parseRadixDigits (radix : Nat) (cs : List Char) : Option Nat :=
  match cs with
  | [] => none
  | _ => cs.foldl
      (fun acc c =>
        match acc, radixDigitVal radix c with
        | some a, some d => some (a * radix + d)
        | _, _ => none)
      (some 0)

/-- A magnitude at or beyond `2^1024` overflows a double to `Infinity`
(which `Number.isInteger` rejects); the exact half-ulp rounding band
just below `2^1024` is approximated by this cut. -/
def doubleOverflowGuard (v : Nat) : Option Int :=
  if v < 2 ^ 1024 then some (Int.ofNat v) else none

/-- The exponent part of a decimal literal (the characters after `e` or
`E`): an optional sign followed by at least one digit, consuming the
whole rest. -/
def parseExpPart : List Char → Option Int
  | [] => none
  | '+' :: t => (parseRadixDigits 10 t).map Int.ofNat
  | '-' :: t => (parseRadixDigits 10 t).map (fun n => -(Int.ofNat n))
  | t => (parseRadixDigits 10 t).map Int.ofNat

/-- ECMA-262 StrUnsignedDecimalLiteral (`Infinity`, or digits with an
optional fraction and exponent), evaluated exactly and restricted to the
integer outcomes: `some n` when the literal's value is the integer `n`,
`none` when the literal is malformed or its value is not an integer. -/
def parseUnsignedDecimalInt (cs : List Char) : Option Int :=
  if cs = "Infinity".toList then none
  else
    let s1 := cs.span Char.isDigit
    let s2 :=
      match s1.2 with
      | '.' :: t => t.span Char.isDigit
      | _ => ([], s1.2)
    if s1.1.isEmpty && s2.1.isEmpty then none
    else
      let e : Option Int :=
        match s2.2 with
        | [] => some 0
        | 'e' :: t => parseExpPart t
        | 'E' :: t => parseExpPart t
        | _ => none
      match e with
      | none => none
      | some ex =>
          let D : Nat := (s1.1 ++ s2.1).foldl (fun a c => a * 10 + (c.toNat - 48)) 0
          let k : Int := ex - Int.ofNat s2.1.length
          if 0 ≤ k then doubleOverflowGuard (D * 10 ^ k.toNat)
          else if D % 10 ^ (-k).toNat = 0 then
            doubleOverflowGuard (D / 10 ^ (-k).toNat)
          else none

/-- ECMA-262 StringToNumber, restricted to the integer outcomes: trim
JavaScript whitespace; the empty string is `0`; `0x`/`0o`/`0b` prefixes
introduce unsigned hex/octal/binary literals; otherwise an optionally
signed decimal literal.  `some n` exactly when `Number(s)` is the
integer `n`; `NaN`, infinities and non-integers give `none`.  The
literal's value is computed exactly; a literal whose exact value is not
an integer but rounds to an integral double (such as
`"1.0000000000000000001"`) is outside the model. -/
def jsStringToNumberInt (s : String) : Option Int :=
  match trimJsWs s.toList with
  | [] => some 0
  | '0' :: 'x' :: rest => (parseRadixDigits 16 rest).bind doubleOverflowGuard
  | '0' :: 'X' :: rest => (parseRadixDigits 16 rest).bind doubleOverflowGuard
  | '0' :: 'o' :: rest => (parseRadixDigits 8 rest).bind doubleOverflowGuard
  | '0' :: 'O' :: rest => (parseRadixDigits 8 rest).bind doubleOverflowGuard
  | '0' :: 'b' :: rest => (parseRadixDigits 2 rest).bind doubleOverflowGuard
  | '0' :: 'B' :: rest => (parseRadixDigits 2 rest).bind doubleOverflowGuard
  | '+' :: rest => parseUnsignedDecimalInt rest
  | '-' :: rest => (parseUnsignedDecimalInt rest).map (fun v => -v)
  | cs => parseUnsignedDecimalInt cs

mutual

/-- ECMA-262 ToString on the embedded values (`String(x)`): used by
array-to-primitive conversion. -/
def jsToString : JVal → String
  | JVal.jundef => "undefined"
  | JVal.jnull => "null"
  | JVal.jbool b => if b then "true" else "false"
  | JVal.jnum n => toString n
  | JVal.jnonint => "0.5"
  | JVal.jstr s => s
  | JVal.jarr xs => String.intercalate "," (jsElemStrings xs)
  | JVal.jobj _ => "[object Object]"

/-- `Array.prototype.join(",")` element strings: `null` and `undefined`
elements become empty strings, every other element its ToString. -/
def jsElemStrings : List JVal → List String
  | [] => []
  | JVal.jundef :: xs => "" :: jsElemStrings xs
  | JVal.jnull :: xs => "" :: jsElemStrings xs
  | x :: xs => jsToString x :: jsElemStrings xs

end

/-- ECMA-262 ToNumber (`Number(x)`) on the embedded values, restricted
to the integer outcomes: `some n` when the conversion yields the integer
`n`, `none` when it yields `NaN`, an infinity or a non-integer.
`undefined` and plain objects give `NaN`; `null` gives `0`; booleans
give `0`/`1`; strings follow `jsStringToNumberInt`; arrays convert
through their join-with-comma string (ToPrimitive), so `[]` and `[null]`
give `0` and `[true]` gives `NaN`. -/
def jsNumberInt : JVal → Option Int
  | JVal.jundef => none
  | JVal.jnull => some 0
  | JVal.jbool b => some (if b then 1 else 0)
  | JVal.jnum n => some n
  | JVal.jnonint => none
  | JVal.jstr s => jsStringToNumberInt s
  | JVal.jarr xs => jsStringToNumberInt (String.intercalate "," (jsElemStrings xs))
  | JVal.jobj _ => none

/-- `Number.isInteger(Number(data)) && data !== null` (the `isNumber`
check from api.ts). -/
def isNumberJ (v : JVal) : Bool :=
  (jsNumberInt v).isSome && !(isNullJ v)

/-- Key lookup in a dictionary-shaped value (`params[key]`); `none` when
the container is not a dictionary or lacks the key. -/
def jLookup (j : JVal) (k : String) : Option JVal :=
  match j with
  | JVal.jobj fields => (fields.find? (fun e => e.1 == k)).map (·.2)
  | _ => none

/-- `key in params` for a dictionary-shaped container. -/
def hasKey (j : JVal) (k : String) : Bool :=
  (jLookup j k).isSome

/-- The typed failures thrown by the handlers (classes from
src/errors.ts, which is imported by api.ts; each carries only the
offending parameters, which the embedding drops). -/
inductive ApiErr where
  | missingAck | invalidAck
  | missingAttachmentID | invalidAttachmentID
  | missingRecipientID | invalidRecipientID
  | missingTxid | invalidTxid
  | invalidVout
  | missingFile
  | cannotChangeAck
  | cannotChangeUploadedFile
  | notFoundConsignment
  | notFoundMedia
  | fsError
deriving Repr, DecidableEq

/-- `getAckParam` from api.ts. -/
def getAckParam (p : JVal) : Except ApiErr Bool :=
  if !(isDictionary p && hasKey p "ack") then Except.error ApiErr.missingAck
  else
    match jLookup p "ack" with
    | some (JVal.jbool b) => Except.ok b
    | _ => Except.error ApiErr.invalidAck

/-- `getAttachmentIDParam` from api.ts: missing when absent or the
container is not a dictionary; invalid when falsy (e.g. the empty
string) or not a string. -/
def getAttachmentIDParam (p : JVal) : Except ApiErr String :=
  if !(isDictionary p && hasKey p "attachment_id") then
    Except.error ApiErr.missingAttachmentID
  else
    match jLookup p "attachment_id" with
    | some (JVal.jstr s) =>
        if s = "" then Except.error ApiErr.invalidAttachmentID else Except.ok s
    | _ => Except.error ApiErr.invalidAttachmentID

/-- `getRecipientIDParam` from api.ts. -/
def getRecipientIDParam (p : JVal) : Except ApiErr String :=
  if !(isDictionary p && hasKey p "recipient_id") then
    Except.error ApiErr.missingRecipientID
  else
    match jLookup p "recipient_id" with
    | some (JVal.jstr s) =>
        if s = "" then Except.error ApiErr.invalidRecipientID else Except.ok s
    | _ => Except.error ApiErr.invalidRecipientID

/-- `getSenderAmountParam` from api.ts: returns the dictionary value when
the key is present and dictionary-shaped, and `none` (the absent marker)
in every other situation; it never throws. -/
def getSenderAmountParam (p : JVal) : Option JVal :=
  if isDictionary p && hasKey p "sender_amount" then
    match jLookup p "sender_amount" with
    | some (JVal.jobj fields) => some (JVal.jobj fields)
    | _ => none
  else none

/-- `getTxidParam` from api.ts. -/
def getTxidParam (p : JVal) : Except ApiErr String :=
  if !(isDictionary p && hasKey p "txid") then Except.error ApiErr.missingTxid
  else
    match jLookup p "txid" with
    | some (JVal.jstr s) =>
        if s = "" then Except.error ApiErr.invalidTxid else Except.ok s
    | _ => Except.error ApiErr.invalidTxid

/-- `getVoutParam` from api.ts: absent key (or non-dictionary container)
yields the absent marker; a present value failing the `isNumber` check
(`Number.isInteger(Number(vout)) && vout !== null`) raises InvalidVout;
otherwise the original value is returned unchanged — `vout as unknown as
number` is only a compile-time cast. -/
def getVoutParam (p : JVal) : Except ApiErr (Option JVal) :=
  if isDictionary p && hasKey p "vout" then
    match jLookup p "vout" with
    | some v =>
        if !(isNumberJ v) then Except.error ApiErr.invalidVout
        else Except.ok (some v)
    | none => Except.ok none
  else Except.ok none

/-- A row of the `consignments` SQLite table (api.ts `ConsignmentDB` /
`Consignment`): `vout` and `ack` are nullable columns, and
`sender_amount` is a nullable TEXT column holding `JSON.stringify` of the
parameter dictionary.  Since `JSON.parse ∘ JSON.stringify` is the
identity on these dictionaries, the embedding stores the dictionary
value itself in place of its serialization; likewise the `vout` column
is modelled as holding the value `getVoutParam` accepted and the handler
bound (better-sqlite3 binding and SQLite column affinity are external to
this repository). -/
structure Consignment where
  recipientID : String
  filename : String
  txid : String
  vout : Option JVal
  ack : Option Bool
  sender_amount : Option JVal
deriving Repr

/-- A row of the `media` SQLite table (api.ts `Media`). -/
structure Media where
  attachment_id : String
  filename : String
deriving Repr

/-- A directory of the data area, as a finite map from file name to the
file's bytes (each byte a `Nat` below 256). -/
abbrev Dir := List (String × List Nat)

/-- `fs.readFileSync` / `fs.existsSync`: the bytes stored under a name,
if any. -/
def fsLookup (d : Dir) (name : String) : Option (List Nat) :=
  (List.find? (fun e => e.1 == name) d).map (·.2)

/-- `fs.unlinkSync` guarded by `fs.existsSync`: drop the entry with the
given name (a no-op when absent). -/
def fsRemove (d : Dir) (name : String) : Dir :=
  List.filter (fun e => ¬ e.1 == name) d

/-- Place bytes under a name, replacing any previous file with that name
(the overwrite semantics of `fs.renameSync` onto an existing target, and
of multer staging a fresh temp file). -/
def fsInsert (d : Dir) (name : String) (bytes : List Nat) : Dir :=
  (name, bytes) :: fsRemove d name

/-- The mutable state of the server: the two SQLite tables and the three
directories `tmp`, `consignments` and `media` under the app data dir
(api.ts module-level `db`, `tempDir`, `consignmentDir`, `mediaDir`). -/
structure ServerState where
  consignments : List Consignment
  media : List Media
  tempFiles : Dir
  consignmentFiles : Dir
  mediaFiles : Dir

/-- The state right after `loadApiEndpoints` on a fresh data dir: empty
tables, empty directories. -/
def initState : ServerState :=
  { consignments := [], media := [], tempFiles := [],
    consignmentFiles := [], mediaFiles := [] }

/-- `getConsignment` from api.ts: `SELECT * FROM consignments WHERE
recipient_id = ?` (the column is UNIQUE, so at most one row matches). -/
def getConsignmentRow (st : ServerState) (recipientID : String) : Option Consignment :=
  List.find? (fun c => c.recipientID == recipientID) st.consignments

/-- `getMedia` from api.ts. -/
def getMediaRow (st : ServerState) (attachmentID : String) : Option Media :=
  List.find? (fun m => m.attachment_id == attachmentID) st.media

/-- `getConsignmentOrFail` from api.ts: extract the recipient id, look
the record up, NotFoundConsignment when absent. -/
def getConsignmentOrFail (st : ServerState) (p : JVal) : Except ApiErr Consignment :=
  match getRecipientIDParam p with
  | Except.error e => Except.error e
  | Except.ok recipientID =>
      match getConsignmentRow st recipientID with
      | none => Except.error ApiErr.notFoundConsignment
      | some c => Except.ok c

/-- Modelled from the spec: `genHashFromFile` lives in src/util.ts, which
is not under src/; the spec describes it as computing a cryptographic
content hash of the staged file's bytes, used as the file's permanent
content-derived name.  It is modelled as a deterministic injective
content-derived name (hex encoding of the bytes), which captures
determinism and freedom from collisions. -/
def genHashFromFile (bytes : List Nat) : String :=
  String.mk (bytes.foldr
    (fun b acc => Nat.digitChar (b / 16 % 16) :: Nat.digitChar (b % 16) :: acc) [])

/-- The base64 alphabet used by Node's `Buffer.toString("base64")`. -/
def base64Alphabet : List Char :=
  "ABCDEFGHIJKLMNOPQRSTUVWXYZabcdefghijklmnopqrstuvwxyz0123456789+/".toList

/-- The character of a sextet value. -/
def sextetChar (n : Nat) : Char :=
  base64Alphabet.getD n 'A'

/-- Standard base64 encoding of a byte list, three bytes to four
characters with `=` padding (the encoding `consignment.get` and
`media.get` apply to the stored file before returning it). -/
def base64EncodeList : List Nat → List Char
  | [] => []
  | [b1] => [sextetChar (b1 / 4), sextetChar (b1 % 4 * 16), '=', '=']
  | [b1, b2] =>
      [sextetChar (b1 / 4), sextetChar (b1 % 4 * 16 + b2 / 16),
       sextetChar (b2 % 16 * 4), '=']
  | b1 :: b2 :: b3 :: rest =>
      sextetChar (b1 / 4) :: sextetChar (b1 % 4 * 16 + b2 / 16) ::
      sextetChar (b2 % 16 * 4 + b3 / 64) :: sextetChar (b3 % 64) ::
      base64EncodeList rest

/-- `fileBuffer.toString("base64")`. -/
def base64Encode (bytes : List Nat) : String :=
  String.mk (base64EncodeList bytes)

/-- Result shape of `consignment.get` (api.ts `ConsignmentGetRes`); the
`sender_amount` field is `JSON.parse` of the stored TEXT column when
that column is non-null, modelled as the stored dictionary itself. -/
structure ConsignmentGetRes where
  consignment : String
  txid : String
  vout : Option JVal
  sender_amount : Option JVal
deriving Repr

/-- Handler outcome: the value returned or the error thrown, paired with
the successor server state. -/
def Outcome (α : Type) := Except ApiErr α × ServerState

/-- The `consignment.get` handler from api.ts. -/
def consignmentGet (st : ServerState) (p : JVal) : Outcome ConsignmentGetRes :=
  match getConsignmentOrFail st p with
  | Except.error e => (Except.error e, st)
  | Except.ok c =>
      match fsLookup st.consignmentFiles c.filename with
      | none => (Except.error ApiErr.fsError, st)
      | some fileBuffer =>
          (Except.ok
            { consignment := base64Encode fileBuffer
              txid := c.txid
              vout := c.vout
              sender_amount := c.sender_amount }, st)

/-- The body of the `try` block of the `consignment.post` handler from
api.ts, given the staged file's name. -/
def consignmentPostTry (st : ServerState) (p : JVal) (fname : String) :
    Outcome Bool :=
  match getRecipientIDParam p with
  | Except.error e => (Except.error e, st)
  | Except.ok recipientID =>
  match getTxidParam p with
  | Except.error e => (Except.error e, st)
  | Except.ok txid =>
  match getVoutParam p with
  | Except.error e => (Except.error e, st)
  | Except.ok vout =>
  match fsLookup st.tempFiles fname with
  | none => (Except.error ApiErr.fsError, st)
  | some bytes =>
  match getConsignmentRow st recipientID with
  | some prevFile =>
      if prevFile.filename == genHashFromFile bytes then
        (Except.ok false, { st with tempFiles := fsRemove st.tempFiles fname })
      else
        (Except.error ApiErr.cannotChangeUploadedFile, st)
  | none =>
      (Except.ok true,
        { st with
          tempFiles := fsRemove st.tempFiles fname
          consignmentFiles :=
            fsInsert st.consignmentFiles (genHashFromFile bytes) bytes
          consignments :=
            { recipientID := recipientID, filename := genHashFromFile bytes,
              txid := txid, vout := vout, ack := none,
              sender_amount := getSenderAmountParam p } :: st.consignments })

/-- The `consignment.post` handler from api.ts: MissingFile without an
upload; otherwise the `try` body, with the `catch` clause deleting the
staged file (when it still exists) before rethrowing. -/
def consignmentPost (st : ServerState) (p : JVal) (file : Option String) :
    Outcome Bool :=
  match file with
  | none => (Except.error ApiErr.missingFile, st)
  | some fname =>
      match consignmentPostTry st p fname with
      | (Except.error e, st') =>
          (Except.error e, { st' with tempFiles := fsRemove st'.tempFiles fname })
      | ok => ok

/-- The `media.get` handler from api.ts. -/
def mediaGet (st : ServerState) (p : JVal) : Outcome String :=
  match getAttachmentIDParam p with
  | Except.error e => (Except.error e, st)
  | Except.ok attachmentID =>
  match getMediaRow st attachmentID with
  | none => (Except.error ApiErr.notFoundMedia, st)
  | some media =>
      match fsLookup st.mediaFiles media.filename with
      | none => (Except.error ApiErr.fsError, st)
      | some fileBuffer => (Except.ok (base64Encode fileBuffer), st)

/-- The body of the `try` block of the `media.post` handler from api.ts
(the attachment id is extracted before the MissingFile check). -/
def mediaPostTry (st : ServerState) (p : JVal) (file : Option String) :
    Outcome Bool :=
  match getAttachmentIDParam p with
  | Except.error e => (Except.error e, st)
  | Except.ok attachmentID =>
  match file with
  | none => (Except.error ApiErr.missingFile, st)
  | some fname =>
  match fsLookup st.tempFiles fname with
  | none => (Except.error ApiErr.fsError, st)
  | some bytes =>
  match getMediaRow st attachmentID with
  | some prevFile =>
      if prevFile.filename == genHashFromFile bytes then
        (Except.ok false, { st with tempFiles := fsRemove st.tempFiles fname })
      else
        (Except.error ApiErr.cannotChangeUploadedFile, st)
  | none =>
      (Except.ok true,
        { st with
          tempFiles := fsRemove st.tempFiles fname
          mediaFiles := fsInsert st.mediaFiles (genHashFromFile bytes) bytes
          media :=
            { attachment_id := attachmentID,
              filename := genHashFromFile bytes } :: st.media })

/-- The `media.post` handler from api.ts: the `try` body, with the
`catch` clause deleting the staged file (if one was uploaded and still
exists) before rethrowing. -/
def mediaPost (st : ServerState) (p : JVal) (file : Option String) :
    Outcome Bool :=
  match mediaPostTry st p file with
  | (Except.error e, st') =>
      match file with
      | some fname =>
          (Except.error e, { st' with tempFiles := fsRemove st'.tempFiles fname })
      | none => (Except.error e, st')
  | ok => ok

/-- The `ack.get` handler from api.ts: the nullable `ack` column of the
record, as `none`/`some`. -/
def ackGet (st : ServerState) (p : JVal) : Outcome (Option Bool) :=
  match getConsignmentOrFail st p with
  | Except.error e => (Except.error e, st)
  | Except.ok c => (Except.ok c.ack, st)

/-- `UPDATE consignments SET ack = ? WHERE recipient_id = ?`. -/
def setAckRows (st : ServerState) (recipientID : String) (a : Bool) : ServerState :=
  let upd := fun (c : Consignment) =>
    if c.recipientID == recipientID then { c with ack := some a } else c
  { st with consignments := st.consignments.map upd }

/-- The `ack.post` handler from api.ts: consignment lookup first, then
ack-flag extraction; an already-set equal value returns `false`, a
conflicting value raises CannotChangeAck, and only the unset case
writes. -/
def ackPost (st : ServerState) (p : JVal) : Outcome Bool :=
  match getConsignmentOrFail st p with
  | Except.error e => (Except.error e, st)
  | Except.ok c =>
  match getAckParam p with
  | Except.error e => (Except.error e, st)
  | Except.ok ack =>
      match c.ack with
      | some prev =>
          if prev == ack then (Except.ok false, st)
          else (Except.error ApiErr.cannotChangeAck, st)
      | none => (Except.ok true, setAckRows st c.recipientID ack)

/-- One inbound request, as dispatched by the `/json-rpc` route: the
method name, the parsed parameters, and (for upload methods) the staged
file's name and bytes as received by multer. -/
inductive Op where
  | opConsignmentPost (p : JVal) (file : Option (String × List Nat)) : Op
  | opConsignmentGet (p : JVal) : Op
  | opMediaPost (p : JVal) (file : Option (String × List Nat)) : Op
  | opMediaGet (p : JVal) : Op
  | opAckPost (p : JVal) : Op
  | opAckGet (p : JVal) : Op

/-- Multer staging: an uploaded file is written into the temp dir before
the handler runs. -/
def stageFile (st : ServerState) (file : Option (String × List Nat)) : ServerState :=
  match file with
  | none => st
  | some (fname, bytes) => { st with tempFiles := fsInsert st.tempFiles fname bytes }

/-- The route-level cleanup pass at the end of the `/json-rpc` handler in
`loadApiEndpoints`: any still-existing staged file of this request is
unlinked after the response is produced. -/
def routeCleanup (st : ServerState) (file : Option (String × List Nat)) : ServerState :=
  match file with
  | none => st
  | some (fname, _) => { st with tempFiles := fsRemove st.tempFiles fname }

/-- The full effect of one request on the server state: stage the upload
(if any), dispatch to the handler, run the route-level cleanup. -/
def applyOp (st : ServerState) (op : Op) : ServerState :=
  match op with
  | Op.opConsignmentPost p file =>
      routeCleanup (consignmentPost (stageFile st file) p (file.map (·.1))).2 file
  | Op.opConsignmentGet p => (consignmentGet st p).2
  | Op.opMediaPost p file =>
      routeCleanup (mediaPost (stageFile st file) p (file.map (·.1))).2 file
  | Op.opMediaGet p => (mediaGet st p).2
  | Op.opAckPost p => (ackPost st p).2
  | Op.opAckGet p => (ackGet st p).2

/-- The state after a sequence of requests. -/
def runOps (st : ServerState) (ops : List Op) : ServerState :=
  ops.foldl applyOp st

/-- Whether a request is an `ack.post` call. -/
def Op.isAckPostOp : Op → Bool
  | Op.opAckPost _ => true
  | _ => false

/-- The two permanent directories are content-addressed: every stored
file is named by the content hash of its bytes, and no name occurs
twice. -/
def contentAddressed (st : ServerState) : Prop :=
  (∀ e ∈ st.consignmentFiles, e.1 = genHashFromFile e.2) ∧
  (∀ e ∈ st.mediaFiles, e.1 = genHashFromFile e.2) ∧
  (st.consignmentFiles.map (fun e => e.1)).Nodup ∧
  (st.mediaFiles.map (fun e => e.1)).Nodup

/-! ### Concrete example fixtures (the spec's `blindTest` example) -/

/-- Parameters of the README example `consignment.post`/`get` calls. -/
def pBlind : JVal :=
  JVal.jobj [("recipient_id", JVal.jstr "blindTest"), ("txid", JVal.jstr "t1")]

/-- Parameters of an `ack.post` with value `true`. -/
def pBlindAckTrue : JVal :=
  JVal.jobj [("recipient_id", JVal.jstr "blindTest"), ("ack", JVal.jbool true)]

/-- Parameters of an `ack.post` with value `false`. -/
def pBlindAckFalse : JVal :=
  JVal.jobj [("recipient_id", JVal.jstr "blindTest"), ("ack", JVal.jbool false)]

/-- Parameters of the media calls. -/
def pAttach : JVal := JVal.jobj [("attachment_id", JVal.jstr "att1")]

/-- The consignment row created by posting the one-byte file `X` for
`blindTest`. -/
def rowBlind : Consignment :=
  { recipientID := "blindTest", filename := genHashFromFile [88], txid := "t1",
    vout := none, ack := none, sender_amount := none }

/-- The same row after `ack.post(true)`. -/
def rowBlindAcked : Consignment := { rowBlind with ack := some true }

/-- A media row for `att1`. -/
def mediaRow1 : Media :=
  { attachment_id := "att1", filename := genHashFromFile [90] }

/-- A server state holding the `blindTest` consignment (ack unset), one
media record, their stored files, and two freshly staged uploads. -/
def exampleState : ServerState :=
  { consignments := [rowBlind], media := [mediaRow1],
    tempFiles := [("u1", [88]), ("u2", [89])],
    consignmentFiles := [(genHashFromFile [88], [88])],
    mediaFiles := [(genHashFromFile [90], [90])] }

/-- The same state after the payee acked. -/
def exampleStateAcked : ServerState :=
  { exampleState with consignments := [rowBlindAcked] }

/-! ### Lemmas about the directory maps -/

theorem fsLookup_fsRemove_self (d : Dir) (n : String) :
    fsLookup (fsRemove d n) n = none := by
  simp only [fsLookup, fsRemove, Option.map_eq_none']
  rw [List.find?_eq_none]
  intro x hx
  have := (List.mem_filter.mp hx).2
  simpa using this

/-! ### Lemmas about base64 -/

theorem getConsignmentRow_rid (st : ServerState) (rid : String) (c : Consignment)
    (h : getConsignmentRow st rid = some c) : c.recipientID = rid := by
  have := List.find?_some h
  simpa using this

theorem getConsignmentRow_setAckRows (st : ServerState) (rid' : String) (a : Bool)
    (rid : String) :
    getConsignmentRow (setAckRows st rid' a) rid =
      Option.map (fun c => if c.recipientID == rid' then { c with ack := some a } else c)
        (getConsignmentRow st rid) := by
  simp only [getConsignmentRow, setAckRows]
  rw [List.find?_map]
  have hp : ((fun c : Consignment => c.recipientID == rid) ∘
      (fun c => if c.recipientID == rid' then { c with ack := some a } else c)) =
      (fun c : Consignment => c.recipientID == rid) := by
    funext c
    by_cases h : c.recipientID = rid' <;> simp [h]
  rw [hp]

theorem getConsignmentRow_eq (st st' : ServerState)
    (h : st.consignments = st'.consignments) (rid : String) :
    getConsignmentRow st rid = getConsignmentRow st' rid := by
  simp [getConsignmentRow, h]

theorem stageFile_consignments (st : ServerState) (file : Option (String × List Nat)) :
    (stageFile st file).consignments = st.consignments := by
  cases file with
  | none => rfl
  | some f => rcases f with ⟨n, b⟩; rfl

theorem routeCleanup_consignments (st : ServerState) (file : Option (String × List Nat)) :
    (routeCleanup st file).consignments = st.consignments := by
  cases file with
  | none => rfl
  | some f => rcases f with ⟨n, b⟩; rfl

theorem getConsignmentOrFail_ok (st : ServerState) (p : JVal) (c0 : Consignment)
    (h : getConsignmentOrFail st p = Except.ok c0) :
    getConsignmentRow st c0.recipientID = some c0 := by
  unfold getConsignmentOrFail at h
  repeat' split at h
  all_goals try exact Except.noConfusion h
  injection h with h1
  subst h1
  rename_i hrow
  have := getConsignmentRow_rid _ _ _ hrow
  rwa [this]

/-! ### State-effect lemmas for the individual handlers -/

theorem consignmentGet_snd (st : ServerState) (p : JVal) : (consignmentGet st p).2 = st := by
  unfold consignmentGet
  repeat' split
  all_goals rfl

theorem mediaGet_snd (st : ServerState) (p : JVal) : (mediaGet st p).2 = st := by
  unfold mediaGet
  repeat' split
  all_goals rfl

theorem ackGet_snd (st : ServerState) (p : JVal) : (ackGet st p).2 = st := by
  unfold ackGet
  repeat' split
  all_goals rfl

theorem mediaPostTry_consignments (st : ServerState) (p : JVal) (file : Option String) :
    ((mediaPostTry st p file).2).consignments = st.consignments := by
  unfold mediaPostTry
  repeat' split
  all_goals rfl

theorem mediaPost_consignments (st : ServerState) (p : JVal) (file : Option String) :
    ((mediaPost st p file).2).consignments = st.consignments := by
  have h' := mediaPostTry_consignments st p file
  rcases h : mediaPostTry st p file with ⟨r, st'⟩
  rw [h] at h'
  rcases r with e | b
  · cases file with
    | none => simp only [mediaPost, h]; exact h'
    | some fname => simp only [mediaPost, h]; simpa using h'
  · simp only [mediaPost, h]; exact h'

theorem consignmentPostTry_row_preserved (st : ServerState) (p : JVal)
    (fname rid : String) (c : Consignment)
    (hc : getConsignmentRow st rid = some c) :
    getConsignmentRow ((consignmentPostTry st p fname).2) rid = some c := by
  unfold consignmentPostTry
  repeat' split
  all_goals try exact hc
  all_goals simp_all [getConsignmentRow, List.find?_cons]
  all_goals
    rename_i hall
    split
    case _ hbeq =>
      have hmem := List.mem_of_find?_eq_some hc
      have hcrid : c.recipientID = rid := by simpa using List.find?_some hc
      have hr := eq_of_beq hbeq
      exact absurd (hcrid.trans hr.symm) (hall c hmem)
    case _ => rfl

theorem consignmentPost_row_preserved (st : ServerState) (p : JVal)
    (file : Option String) (rid : String) (c : Consignment)
    (hc : getConsignmentRow st rid = some c) :
    getConsignmentRow ((consignmentPost st p file).2) rid = some c := by
  cases file with
  | none => simpa [consignmentPost] using hc
  | some fname =>
    have h' := consignmentPostTry_row_preserved st p fname rid c hc
    rcases htry : consignmentPostTry st p fname with ⟨r, st'⟩
    rw [htry] at h'
    rcases r with e | b
    · simp only [consignmentPost, htry]
      simpa [getConsignmentRow] using h'
    · simp only [consignmentPost, htry]
      exact h'

theorem ackPost_row_ack_preserved (st : ServerState) (p : JVal) (rid : String)
    (c : Consignment) (b : Bool)
    (hc : getConsignmentRow st rid = some c) (hb : c.ack = some b) :
    getConsignmentRow ((ackPost st p).2) rid = some c := by
  rcases hof : getConsignmentOrFail st p with e | c0
  · simp only [ackPost, hof]; exact hc
  rcases hap : getAckParam p with e | a
  · simp only [ackPost, hof, hap]; exact hc
  rcases hack0 : c0.ack with _ | prev
  · simp only [ackPost, hof, hap, hack0]
    rw [getConsignmentRow_setAckRows, hc]
    by_cases hp : c.recipientID = c0.recipientID
    · exfalso
      have h0 := getConsignmentOrFail_ok st p c0 hof
      have hcr := getConsignmentRow_rid _ _ _ hc
      rw [← hp, hcr, hc] at h0
      injection h0 with h0'
      rw [← h0', hb] at hack0
      exact Option.noConfusion hack0
    · simp [hp]
  · simp only [ackPost, hof, hap, hack0]
    by_cases hpe : prev = a <;> simp [hpe, hc]

theorem ackPost_row_none (st : ServerState) (p : JVal) (rid : String)
    (hnone : getConsignmentRow st rid = none) :
    getConsignmentRow ((ackPost st p).2) rid = none := by
  rcases hof : getConsignmentOrFail st p with e | c0
  · simp only [ackPost, hof]; exact hnone
  rcases hap : getAckParam p with e | a
  · simp only [ackPost, hof, hap]; exact hnone
  rcases hack0 : c0.ack with _ | prev
  · simp only [ackPost, hof, hap, hack0]
    rw [getConsignmentRow_setAckRows, hnone]
    rfl
  · simp only [ackPost, hof, hap, hack0]
    by_cases hpe : prev = a <;> simp [hpe, hnone]

theorem consignmentPostTry_ok_temp (st : ServerState) (p : JVal) (fname : String)
    (b : Bool) (st' : ServerState)
    (h : consignmentPostTry st p fname = (Except.ok b, st')) :
    fsLookup st'.tempFiles fname = none := by
  unfold consignmentPostTry at h
  repeat' split at h
  all_goals injection h with h1 h2
  all_goals first
    | exact Except.noConfusion h1
    | (subst h2; simp [fsLookup_fsRemove_self])

theorem mediaPostTry_ok_temp (st : ServerState) (p : JVal) (file : Option String)
    (b : Bool) (st' : ServerState)
    (h : mediaPostTry st p file = (Except.ok b, st'))
    (fname : String) (hf : file = some fname) :
    fsLookup st'.tempFiles fname = none := by
  unfold mediaPostTry at h
  repeat' split at h
  all_goals injection h with h1 h2
  all_goals try exact Except.noConfusion h1
  all_goals (subst h2; injection hf with hf1; subst hf1; simp [fsLookup_fsRemove_self])

theorem consignmentPostTry_new_row_unset (st : ServerState) (p : JVal)
    (fname rid : String) (c' : Consignment)
    (hnone : getConsignmentRow st rid = none)
    (hc' : getConsignmentRow ((consignmentPostTry st p fname).2) rid = some c') :
    c'.ack = none := by
  simp only [getConsignmentRow] at hnone
  unfold consignmentPostTry at hc'
  repeat' split at hc'
  all_goals simp only [getConsignmentRow, List.find?_cons] at hc'
  all_goals try (rw [hnone] at hc'; exact Option.noConfusion hc')
  split at hc'
  · injection hc' with hc1
    rw [← hc1]
  · rw [hnone] at hc'
    exact Option.noConfusion hc'

theorem consignmentPost_new_row_unset (st : ServerState) (p : JVal)
    (file : Option String) (rid : String) (c' : Consignment)
    (hnone : getConsignmentRow st rid = none)
    (hc' : getConsignmentRow ((consignmentPost st p file).2) rid = some c') :
    c'.ack = none := by
  cases file with
  | none =>
      simp only [consignmentPost] at hc'
      rw [hnone] at hc'
      exact Option.noConfusion hc'
  | some fname =>
      rcases htry : consignmentPostTry st p fname with ⟨r, stT⟩
      rcases r with e | b
      · simp only [consignmentPost, htry] at hc'
        have hT : getConsignmentRow ((consignmentPostTry st p fname).2) rid = some c' := by
          rw [htry]
          simpa [getConsignmentRow] using hc'
        exact consignmentPostTry_new_row_unset st p fname rid c' hnone hT
      · simp only [consignmentPost, htry] at hc'
        have hT : getConsignmentRow ((consignmentPostTry st p fname).2) rid = some c' := by
          rw [htry]; exact hc'
        exact consignmentPostTry_new_row_unset st p fname rid c' hnone hT

/-! ### One-request step lemmas -/

theorem applyOp_row_settled (st : ServerState) (op : Op) (rid : String)
    (c : Consignment) (b : Bool)
    (hc : getConsignmentRow st rid = some c) (hb : c.ack = some b) :
    getConsignmentRow (applyOp st op) rid = some c := by
  cases op with
  | opConsignmentPost p file =>
      simp only [applyOp]
      rw [getConsignmentRow_eq _ _ (routeCleanup_consignments _ file) rid]
      apply consignmentPost_row_preserved
      rw [getConsignmentRow_eq (stageFile st file) st (stageFile_consignments st file) rid]
      exact hc
  | opConsignmentGet p =>
      simp only [applyOp]
      rw [consignmentGet_snd]
      exact hc
  | opMediaPost p file =>
      simp only [applyOp]
      rw [getConsignmentRow_eq _ _ (routeCleanup_consignments _ file) rid]
      rw [getConsignmentRow_eq _ (stageFile st file) (mediaPost_consignments _ p _) rid]
      rw [getConsignmentRow_eq (stageFile st file) st (stageFile_consignments st file) rid]
      exact hc
  | opMediaGet p =>
      simp only [applyOp]
      rw [mediaGet_snd]
      exact hc
  | opAckPost p =>
      simp only [applyOp]
      exact ackPost_row_ack_preserved st p rid c b hc hb
  | opAckGet p =>
      simp only [applyOp]
      rw [ackGet_snd]
      exact hc

theorem applyOp_row_preserved_nonack (st : ServerState) (op : Op) (rid : String)
    (c : Consignment)
    (hop : Op.isAckPostOp op = false)
    (hc : getConsignmentRow st rid = some c) :
    getConsignmentRow (applyOp st op) rid = some c := by
  cases op with
  | opConsignmentPost p file =>
      simp only [applyOp]
      rw [getConsignmentRow_eq _ _ (routeCleanup_consignments _ file) rid]
      apply consignmentPost_row_preserved
      rw [getConsignmentRow_eq (stageFile st file) st (stageFile_consignments st file) rid]
      exact hc
  | opConsignmentGet p =>
      simp only [applyOp]
      rw [consignmentGet_snd]
      exact hc
  | opMediaPost p file =>
      simp only [applyOp]
      rw [getConsignmentRow_eq _ _ (routeCleanup_consignments _ file) rid]
      rw [getConsignmentRow_eq _ (stageFile st file) (mediaPost_consignments _ p _) rid]
      rw [getConsignmentRow_eq (stageFile st file) st (stageFile_consignments st file) rid]
      exact hc
  | opMediaGet p =>
      simp only [applyOp]
      rw [mediaGet_snd]
      exact hc
  | opAckPost p => exact absurd hop (by simp [Op.isAckPostOp])
  | opAckGet p =>
      simp only [applyOp]
      rw [ackGet_snd]
      exact hc

theorem applyOp_new_row_unset (st : ServerState) (op : Op) (rid : String)
    (c' : Consignment)
    (hnone : getConsignmentRow st rid = none)
    (hc' : getConsignmentRow (applyOp st op) rid = some c') :
    c'.ack = none := by
  cases op with
  | opConsignmentPost p file =>
      simp only [applyOp] at hc'
      rw [getConsignmentRow_eq _ _ (routeCleanup_consignments _ file) rid] at hc'
      refine consignmentPost_new_row_unset (stageFile st file) p (file.map (·.1)) rid c' ?_ hc'
      rw [getConsignmentRow_eq (stageFile st file) st (stageFile_consignments st file) rid]
      exact hnone
  | opConsignmentGet p =>
      simp only [applyOp] at hc'
      rw [consignmentGet_snd, hnone] at hc'
      exact Option.noConfusion hc'
  | opMediaPost p file =>
      simp only [applyOp] at hc'
      rw [getConsignmentRow_eq _ _ (routeCleanup_consignments _ file) rid,
        getConsignmentRow_eq _ (stageFile st file) (mediaPost_consignments _ p _) rid,
        getConsignmentRow_eq (stageFile st file) st (stageFile_consignments st file) rid,
        hnone] at hc'
      exact Option.noConfusion hc'
  | opMediaGet p =>
      simp only [applyOp] at hc'
      rw [mediaGet_snd, hnone] at hc'
      exact Option.noConfusion hc'
  | opAckPost p =>
      simp only [applyOp] at hc'
      rw [ackPost_row_none st p rid hnone] at hc'
      exact Option.noConfusion hc'
  | opAckGet p =>
      simp only [applyOp] at hc'
      rw [ackGet_snd, hnone] at hc'
      exact Option.noConfusion hc'

/-! ### Content-addressing of the permanent directories -/

theorem mem_fsRemove (d : Dir) (n : String) (e : String × List Nat)
    (h : e ∈ fsRemove d n) : e ∈ d :=
  List.mem_of_mem_filter h

theorem mem_fsInsert (d : Dir) (n : String) (b : List Nat) (e : String × List Nat)
    (h : e ∈ fsInsert d n b) : e = (n, b) ∨ e ∈ d := by
  rcases List.mem_cons.mp h with h1 | h2
  · exact Or.inl h1
  · exact Or.inr (mem_fsRemove d n e h2)

theorem fsRemove_map_sublist (d : Dir) (n : String) :
    ((fsRemove d n).map (fun e => e.1)).Sublist (d.map (fun e => e.1)) :=
  (List.filter_sublist d).map _

theorem fsInsert_names_nodup (d : Dir) (n : String) (b : List Nat)
    (hd : (d.map (fun e => e.1)).Nodup) :
    ((fsInsert d n b).map (fun e => e.1)).Nodup := by
  simp only [fsInsert, List.map_cons, List.nodup_cons]
  constructor
  · intro hmem
    rcases List.mem_map.mp hmem with ⟨e, he, hfst⟩
    have := (List.mem_filter.mp he).2
    rw [hfst] at this
    simp at this
  · exact (fsRemove_map_sublist d n).nodup hd

theorem consignmentPostTry_dirs (st : ServerState) (p : JVal) (fname : String) :
    (((consignmentPostTry st p fname).2).consignmentFiles = st.consignmentFiles ∨
      ∃ bytes, ((consignmentPostTry st p fname).2).consignmentFiles =
        fsInsert st.consignmentFiles (genHashFromFile bytes) bytes) ∧
    ((consignmentPostTry st p fname).2).mediaFiles = st.mediaFiles := by
  unfold consignmentPostTry
  repeat' split
  all_goals first
    | exact ⟨Or.inl rfl, rfl⟩
    | exact ⟨Or.inr ⟨_, rfl⟩, rfl⟩

theorem consignmentPost_dirs (st : ServerState) (p : JVal) (file : Option String) :
    (((consignmentPost st p file).2).consignmentFiles = st.consignmentFiles ∨
      ∃ bytes, ((consignmentPost st p file).2).consignmentFiles =
        fsInsert st.consignmentFiles (genHashFromFile bytes) bytes) ∧
    ((consignmentPost st p file).2).mediaFiles = st.mediaFiles := by
  cases file with
  | none => exact ⟨Or.inl rfl, rfl⟩
  | some fname =>
      have h := consignmentPostTry_dirs st p fname
      rcases htry : consignmentPostTry st p fname with ⟨r, st'⟩
      rw [htry] at h
      rcases r with e | b
      · simp only [consignmentPost, htry]
        exact h
      · simp only [consignmentPost, htry]
        exact h

theorem mediaPostTry_dirs (st : ServerState) (p : JVal) (file : Option String) :
    (((mediaPostTry st p file).2).mediaFiles = st.mediaFiles ∨
      ∃ bytes, ((mediaPostTry st p file).2).mediaFiles =
        fsInsert st.mediaFiles (genHashFromFile bytes) bytes) ∧
    ((mediaPostTry st p file).2).consignmentFiles = st.consignmentFiles := by
  unfold mediaPostTry
  repeat' split
  all_goals first
    | exact ⟨Or.inl rfl, rfl⟩
    | exact ⟨Or.inr ⟨_, rfl⟩, rfl⟩

theorem mediaPost_dirs (st : ServerState) (p : JVal) (file : Option String) :
    (((mediaPost st p file).2).mediaFiles = st.mediaFiles ∨
      ∃ bytes, ((mediaPost st p file).2).mediaFiles =
        fsInsert st.mediaFiles (genHashFromFile bytes) bytes) ∧
    ((mediaPost st p file).2).consignmentFiles = st.consignmentFiles := by
  have h := mediaPostTry_dirs st p file
  rcases htry : mediaPostTry st p file with ⟨r, st'⟩
  rw [htry] at h
  rcases r with e | b
  · cases file with
    | none => simp only [mediaPost, htry]; exact h
    | some fname => simp only [mediaPost, htry]; exact h
  · simp only [mediaPost, htry]; exact h

theorem ackPost_dirs (st : ServerState) (p : JVal) :
    ((ackPost st p).2).consignmentFiles = st.consignmentFiles ∧
    ((ackPost st p).2).mediaFiles = st.mediaFiles := by
  unfold ackPost
  repeat' split
  all_goals exact ⟨rfl, rfl⟩

theorem stageFile_dirs (st : ServerState) (file : Option (String × List Nat)) :
    (stageFile st file).consignmentFiles = st.consignmentFiles ∧
    (stageFile st file).mediaFiles = st.mediaFiles := by
  cases file with
  | none => exact ⟨rfl, rfl⟩
  | some f => rcases f with ⟨n, b⟩; exact ⟨rfl, rfl⟩

theorem routeCleanup_dirs (st : ServerState) (file : Option (String × List Nat)) :
    (routeCleanup st file).consignmentFiles = st.consignmentFiles ∧
    (routeCleanup st file).mediaFiles = st.mediaFiles := by
  cases file with
  | none => exact ⟨rfl, rfl⟩
  | some f => rcases f with ⟨n, b⟩; exact ⟨rfl, rfl⟩

theorem contentAddressed_fsInsert (d : Dir) (bytes : List Nat)
    (h1 : ∀ e ∈ d, e.1 = genHashFromFile e.2) :
    ∀ e ∈ fsInsert d (genHashFromFile bytes) bytes, e.1 = genHashFromFile e.2 := by
  intro e he
  rcases mem_fsInsert _ _ _ _ he with h | h
  · rw [h]
  · exact h1 e h

theorem applyOp_contentAddressed (st : ServerState) (op : Op)
    (h : contentAddressed st) : contentAddressed (applyOp st op) := by
  obtain ⟨hca, hma, hcn, hmn⟩ := h
  cases op with
  | opConsignmentPost p file =>
      simp only [applyOp]
      obtain ⟨hc1, hc2⟩ := routeCleanup_dirs ((consignmentPost (stageFile st file) p (file.map (·.1))).2) file
      obtain ⟨hp1, hp2⟩ := consignmentPost_dirs (stageFile st file) p (file.map (·.1))
      obtain ⟨hs1, hs2⟩ := stageFile_dirs st file
      refine ⟨?_, ?_, ?_, ?_⟩
      · rw [hc1]
        rcases hp1 with hsame | ⟨bytes, hins⟩
        · rw [hsame, hs1]; exact hca
        · rw [hins, hs1]; exact contentAddressed_fsInsert _ bytes hca
      · rw [hc2, hp2, hs2]; exact hma
      · rw [hc1]
        rcases hp1 with hsame | ⟨bytes, hins⟩
        · rw [hsame, hs1]; exact hcn
        · rw [hins, hs1]; exact fsInsert_names_nodup _ _ _ hcn
      · rw [hc2, hp2, hs2]; exact hmn
  | opMediaPost p file =>
      simp only [applyOp]
      obtain ⟨hc1, hc2⟩ := routeCleanup_dirs ((mediaPost (stageFile st file) p (file.map (·.1))).2) file
      obtain ⟨hp1, hp2⟩ := mediaPost_dirs (stageFile st file) p (file.map (·.1))
      obtain ⟨hs1, hs2⟩ := stageFile_dirs st file
      refine ⟨?_, ?_, ?_, ?_⟩
      · rw [hc1, hp2, hs1]; exact hca
      · rw [hc2]
        rcases hp1 with hsame | ⟨bytes, hins⟩
        · rw [hsame, hs2]; exact hma
        · rw [hins, hs2]; exact contentAddressed_fsInsert _ bytes hma
      · rw [hc1, hp2, hs1]; exact hcn
      · rw [hc2]
        rcases hp1 with hsame | ⟨bytes, hins⟩
        · rw [hsame, hs2]; exact hmn
        · rw [hins, hs2]; exact fsInsert_names_nodup _ _ _ hmn
  | opConsignmentGet p =>
      simp only [applyOp]
      rw [consignmentGet_snd]
      exact ⟨hca, hma, hcn, hmn⟩
  | opMediaGet p =>
      simp only [applyOp]
      rw [mediaGet_snd]
      exact ⟨hca, hma, hcn, hmn⟩
  | opAckPost p =>
      simp only [applyOp]
      obtain ⟨h1, h2⟩ := ackPost_dirs st p
      rw [contentAddressed, h1, h2]
      exact ⟨hca, hma, hcn, hmn⟩
  | opAckGet p =>
      simp only [applyOp]
      rw [ackGet_snd]
      exact ⟨hca, hma, hcn, hmn⟩

theorem runOps_contentAddressed_of (st : ServerState) (ops : List Op)
    (h : contentAddressed st) : contentAddressed (runOps st ops) := by
  induction ops generalizing st with
  | nil => exact h
  | cons op ops ih => exact ih (applyOp st op) (applyOp_contentAddressed st op h)

theorem runOps_contentAddressed (ops : List Op) :
    contentAddressed (runOps initState ops) :=
  runOps_contentAddressed_of initState ops
    (by refine ⟨?_, ?_, ?_, ?_⟩ <;> simp [initState])

theorem post_conflict_consignment (st : ServerState) (p : JVal) (rid t : String)
    (v : Option JVal) (c : Consignment) (fname : String) (bytes : List Nat)
    (hrid : getRecipientIDParam p = Except.ok rid)
    (ht : getTxidParam p = Except.ok t)
    (hv : getVoutParam p = Except.ok v)
    (htemp : fsLookup st.tempFiles fname = some bytes)
    (hrow : getConsignmentRow st rid = some c)
    (hdiff : ¬ c.filename = genHashFromFile bytes) :
    (consignmentPost st p (some fname)).1 = Except.error ApiErr.cannotChangeUploadedFile ∧
    ((consignmentPost st p (some fname)).2).consignments = st.consignments := by
  have htry : consignmentPostTry st p fname =
      (Except.error ApiErr.cannotChangeUploadedFile, st) := by
    simp only [consignmentPostTry, hrid, ht, hv, htemp, hrow]
    simp [hdiff]
  simp [consignmentPost, htry]

theorem post_conflict_media (st : ServerState) (p : JVal) (aid : String)
    (m : Media) (fname : String) (bytes : List Nat)
    (haid : getAttachmentIDParam p = Except.ok aid)
    (htemp : fsLookup st.tempFiles fname = some bytes)
    (hrow : getMediaRow st aid = some m)
    (hdiff : ¬ m.filename = genHashFromFile bytes) :
    (mediaPost st p (some fname)).1 = Except.error ApiErr.cannotChangeUploadedFile ∧
    ((mediaPost st p (some fname)).2).media = st.media := by
  have htry : mediaPostTry st p (some fname) =
      (Except.error ApiErr.cannotChangeUploadedFile, st) := by
    simp only [mediaPostTry, haid, htemp, hrow]
    simp [hdiff]
  simp [mediaPost, htry]

/-- A settled row survives any further sequence of requests unchanged. -/
theorem runOps_row_settled (ops : List Op) (st : ServerState) (rid : String)
    (c : Consignment) (b : Bool)
    (hc : getConsignmentRow st rid = some c) (hb : c.ack = some b) :
    getConsignmentRow (runOps st ops) rid = some c := by
  induction ops generalizing st with
  | nil => exact hc
  | cons op ops ih =>
      exact ih (applyOp st op) (applyOp_row_settled st op rid c b hc hb)

/-! ### Claim theorems -/

/-- C2: re-posting a key with different content raises
CannotChangeUploadedFile and leaves the registry untouched, for both
`consignment.post` and `media.post`. -/
theorem claim2_cannot_change_uploaded_file (st : ServerState) (p q : JVal)
    (rid t aid : String) (v : Option JVal) (c : Consignment) (m : Media)
    (fname gname : String) (bytes cbytes : List Nat) :
    (getRecipientIDParam p = Except.ok rid → getTxidParam p = Except.ok t →
      getVoutParam p = Except.ok v → fsLookup st.tempFiles fname = some bytes →
      getConsignmentRow st rid = some c → ¬ c.filename = genHashFromFile bytes →
      (consignmentPost st p (some fname)).1 =
        Except.error ApiErr.cannotChangeUploadedFile ∧
      ((consignmentPost st p (some fname)).2).consignments = st.consignments) ∧
    (getAttachmentIDParam q = Except.ok aid →
      fsLookup st.tempFiles gname = some cbytes →
      getMediaRow st aid = some m → ¬ m.filename = genHashFromFile cbytes →
      (mediaPost st q (some gname)).1 =
        Except.error ApiErr.cannotChangeUploadedFile ∧
      ((mediaPost st q (some gname)).2).media = st.media) := by
  constructor
  · intro h1 h2 h3 h4 h5 h6
    exact post_conflict_consignment st p rid t v c fname bytes h1 h2 h3 h4 h5 h6
  · intro h1 h2 h3 h4
    exact post_conflict_media st q aid m gname cbytes h1 h2 h3 h4

/-- C2 witness: a conflicting consignment re-post and a conflicting
media re-post on the example state, both rejected without any registry
change. -/
theorem claim2_witness :
    ((consignmentPost exampleState pBlind (some "u2")).1 =
        Except.error ApiErr.cannotChangeUploadedFile ∧
      ((consignmentPost exampleState pBlind (some "u2")).2).consignments =
        exampleState.consignments) ∧
    ((mediaPost exampleState pAttach (some "u2")).1 =
        Except.error ApiErr.cannotChangeUploadedFile ∧
      ((mediaPost exampleState pAttach (some "u2")).2).media =
        exampleState.media) :=
  ⟨(claim2_cannot_change_uploaded_file exampleState pBlind pAttach
      "blindTest" "t1" "att1" none rowBlind mediaRow1 "u2" "u2" [89] [89]).1
      rfl rfl rfl rfl rfl (by decide),
   (claim2_cannot_change_uploaded_file exampleState pBlind pAttach
      "blindTest" "t1" "att1" none rowBlind mediaRow1 "u2" "u2" [89] [89]).2
      rfl rfl rfl (by decide)⟩

/-- C3: `ack.post` on an existing record persists the value and returns
`true` when the stored ack is unset, returns `false` when it already
equals the requested value, and raises CannotChangeAck (leaving the
state unchanged) when it is set and differs. -/
theorem claim3_ack_post_state_machine (st : ServerState) (p : JVal) (rid : String)
    (c : Consignment) (v : Bool)
    (hrid : getRecipientIDParam p = Except.ok rid)
    (hrow : getConsignmentRow st rid = some c)
    (hack : getAckParam p = Except.ok v) :
    (c.ack = none →
      (ackPost st p).1 = Except.ok true ∧
      getConsignmentRow (ackPost st p).2 rid = some { c with ack := some v }) ∧
    (c.ack = some v → ackPost st p = (Except.ok false, st)) ∧
    (∀ w, c.ack = some w → ¬ w = v →
      ackPost st p = (Except.error ApiErr.cannotChangeAck, st)) := by
  have hcrid : c.recipientID = rid := getConsignmentRow_rid st rid c hrow
  refine ⟨?_, ?_, ?_⟩
  · intro hunset
    refine ⟨by simp [ackPost, getConsignmentOrFail, hrid, hrow, hack, hunset], ?_⟩
    simp only [ackPost, getConsignmentOrFail, hrid, hrow, hack, hunset]
    rw [getConsignmentRow_setAckRows, hrow]
    simp [hcrid]
  · intro hset
    simp [ackPost, getConsignmentOrFail, hrid, hrow, hack, hset]
  · intro w hset hne
    simp only [ackPost, getConsignmentOrFail, hrid, hrow, hack, hset]
    simp [show (w == v) = false by simpa using hne]

/-- C3 witness: ack `true` on the unset example record succeeds and
persists; repeating it returns `false`; posting `false` afterwards
raises CannotChangeAck and changes nothing. -/
theorem claim3_witness :
    ((ackPost exampleState pBlindAckTrue).1 = Except.ok true ∧
      getConsignmentRow (ackPost exampleState pBlindAckTrue).2 "blindTest" =
        some rowBlindAcked) ∧
    ackPost exampleStateAcked pBlindAckTrue = (Except.ok false, exampleStateAcked) ∧
    ackPost exampleStateAcked pBlindAckFalse =
      (Except.error ApiErr.cannotChangeAck, exampleStateAcked) :=
  ⟨(claim3_ack_post_state_machine exampleState pBlindAckTrue "blindTest"
      rowBlind true rfl rfl rfl).1 rfl,
   (claim3_ack_post_state_machine exampleStateAcked pBlindAckTrue "blindTest"
      rowBlindAcked true rfl rfl rfl).2.1 rfl,
   (claim3_ack_post_state_machine exampleStateAcked pBlindAckFalse "blindTest"
      rowBlindAcked false rfl rfl rfl).2.2 true rfl (by decide)⟩

/-- C4: across every sequence of requests, a record's ack state moves
only from unset to a terminal value and then never changes (the whole
row is preserved); records are created with ack unset; and every request
other than `ack.post` leaves existing rows exactly as they are. -/
theorem claim4_ack_write_once (st : ServerState) (rid : String) :
    (∀ c b ops, getConsignmentRow st rid = some c → c.ack = some b →
        getConsignmentRow (runOps st ops) rid = some c) ∧
    (∀ op c', getConsignmentRow st rid = none →
        getConsignmentRow (applyOp st op) rid = some c' → c'.ack = none) ∧
    (∀ op c, Op.isAckPostOp op = false → getConsignmentRow st rid = some c →
        getConsignmentRow (applyOp st op) rid = some c) := by
  refine ⟨?_, ?_, ?_⟩
  · intro c b ops hc hb
    exact runOps_row_settled ops st rid c b hc hb
  · intro op c' h1 h2
    exact applyOp_new_row_unset st op rid c' h1 h2
  · intro op c h1 h2
    exact applyOp_row_preserved_nonack st op rid c h1 h2

/-- C4 witness: the acked example row survives a contrary `ack.post`
followed by a get; a fresh `consignment.post` creates its row with ack
unset; and a get leaves the acked row untouched. -/
theorem claim4_witness :
    getConsignmentRow
      (runOps exampleStateAcked
        [Op.opAckPost pBlindAckFalse, Op.opConsignmentGet pBlind])
      "blindTest" = some rowBlindAcked ∧
    rowBlind.ack = none ∧
    getConsignmentRow
      (applyOp exampleStateAcked (Op.opConsignmentGet pBlind))
      "blindTest" = some rowBlindAcked :=
  ⟨(claim4_ack_write_once exampleStateAcked "blindTest").1 rowBlindAcked true
      [Op.opAckPost pBlindAckFalse, Op.opConsignmentGet pBlind] rfl rfl,
   (claim4_ack_write_once initState "blindTest").2.1
      (Op.opConsignmentPost pBlind (some ("u1", [88]))) rowBlind rfl rfl,
   (claim4_ack_write_once exampleStateAcked "blindTest").2.2
      (Op.opConsignmentGet pBlind) rowBlindAcked rfl rfl⟩

/-- C7: `ack.get` returns the unset marker (`none`, not an error) for a
record never acked, the stored boolean for an acked record, and raises
NotFoundConsignment for an unknown recipient id. -/
theorem claim7_ack_get (st : ServerState) (p : JVal) (rid : String)
    (hrid : getRecipientIDParam p = Except.ok rid) :
    (∀ c, getConsignmentRow st rid = some c → c.ack = none →
        ackGet st p = (Except.ok none, st)) ∧
    (∀ c b, getConsignmentRow st rid = some c → c.ack = some b →
        ackGet st p = (Except.ok (some b), st)) ∧
    (getConsignmentRow st rid = none →
        ackGet st p = (Except.error ApiErr.notFoundConsignment, st)) := by
  refine ⟨?_, ?_, ?_⟩
  · intro c hc hackn
    simp [ackGet, getConsignmentOrFail, hrid, hc, hackn]
  · intro c b hc hackb
    simp [ackGet, getConsignmentOrFail, hrid, hc, hackb]
  · intro hn
    simp [ackGet, getConsignmentOrFail, hrid, hn]

/-- C7 witness: unset, acked and unknown cases on concrete states. -/
theorem claim7_witness :
    ackGet exampleState pBlind = (Except.ok none, exampleState) ∧
    ackGet exampleStateAcked pBlind = (Except.ok (some true), exampleStateAcked) ∧
    ackGet initState pBlind = (Except.error ApiErr.notFoundConsignment, initState) :=
  ⟨(claim7_ack_get exampleState pBlind "blindTest" rfl).1 rowBlind rfl rfl,
   (claim7_ack_get exampleStateAcked pBlind "blindTest" rfl).2.1
      rowBlindAcked true rfl rfl,
   (claim7_ack_get initState pBlind "blindTest" rfl).2.2 rfl⟩

/-- C9: after any `consignment.post` or `media.post` carrying an upload,
the staged temporary file is gone — both at handler level (every path of
the handler deletes or moves it) and after the route-level cleanup pass
of a full request. -/
theorem claim9_staged_upload_always_deleted (st : ServerState) (p : JVal)
    (fname : String) (bytes : List Nat) :
    fsLookup ((consignmentPost st p (some fname)).2).tempFiles fname = none ∧
    fsLookup ((mediaPost st p (some fname)).2).tempFiles fname = none ∧
    fsLookup (applyOp st (Op.opConsignmentPost p (some (fname, bytes)))).tempFiles
      fname = none ∧
    fsLookup (applyOp st (Op.opMediaPost p (some (fname, bytes)))).tempFiles
      fname = none := by
  refine ⟨?_, ?_, ?_, ?_⟩
  · rcases h : consignmentPostTry st p fname with ⟨r, st'⟩
    rcases r with e | b
    · simp only [consignmentPost, h]
      simp [fsLookup_fsRemove_self]
    · simp only [consignmentPost, h]
      exact consignmentPostTry_ok_temp st p fname b st' h
  · rcases h : mediaPostTry st p (some fname) with ⟨r, st'⟩
    rcases r with e | b
    · simp only [mediaPost, h]
      simp [fsLookup_fsRemove_self]
    · simp only [mediaPost, h]
      exact mediaPostTry_ok_temp st p (some fname) b st' h fname rfl
  · simp only [applyOp, routeCleanup]
    exact fsLookup_fsRemove_self _ fname
  · simp only [applyOp, routeCleanup]
    exact fsLookup_fsRemove_self _ fname

/-- C10: `ack.post` looks the consignment up before validating the ack
flag, so an unknown recipient id yields NotFoundConsignment whatever the
ack parameter looks like (even missing or invalid). -/
theorem claim10_notfound_precedence (st : ServerState) (p : JVal) (rid : String)
    (hrid : getRecipientIDParam p = Except.ok rid)
    (hnone : getConsignmentRow st rid = none) :
    ackPost st p = (Except.error ApiErr.notFoundConsignment, st) := by
  simp [ackPost, getConsignmentOrFail, hrid, hnone]

/-- C10 witness: unknown recipient id and no `ack` field at all — the
response is NotFoundConsignment, not MissingAck. -/
theorem claim10_witness :
    ackPost initState pBlind = (Except.error ApiErr.notFoundConsignment, initState) ∧
    getAckParam pBlind = Except.error ApiErr.missingAck :=
  ⟨claim10_notfound_precedence initState pBlind "blindTest" rfl rfl, rfl⟩

/-- C6: in every state reachable from a fresh server, each permanently
stored file is named by the content hash of its bytes, two stored files
with the same bytes in a directory are the same file, and no name occurs
twice in a directory (content-addressed deduplication). -/
theorem claim6_content_addressed_storage (ops : List Op) (st : ServerState)
    (hst : st = runOps initState ops) :
    (∀ e ∈ st.consignmentFiles, e.1 = genHashFromFile e.2) ∧
    (∀ e ∈ st.mediaFiles, e.1 = genHashFromFile e.2) ∧
    (∀ e e', e ∈ st.consignmentFiles → e' ∈ st.consignmentFiles →
      e.2 = e'.2 → e = e') ∧
    (∀ e e', e ∈ st.mediaFiles → e' ∈ st.mediaFiles → e.2 = e'.2 → e = e') ∧
    (∀ n, ((st.consignmentFiles.map (fun e => e.1)).count n) ≤ 1 ∧
      ((st.mediaFiles.map (fun e => e.1)).count n) ≤ 1) := by
  subst hst
  obtain ⟨hca, hma, hcn, hmn⟩ := runOps_contentAddressed ops
  refine ⟨hca, hma, ?_, ?_, ?_⟩
  · intro e e' he he' hb
    have h1 : e.1 = e'.1 := by rw [hca e he, hca e' he', hb]
    exact Prod.ext h1 hb
  · intro e e' he he' hb
    have h1 : e.1 = e'.1 := by rw [hma e he, hma e' he', hb]
    exact Prod.ext h1 hb
  · intro n
    exact ⟨List.nodup_iff_count_le_one.mp hcn n, List.nodup_iff_count_le_one.mp hmn n⟩

/-- C6 witness: after posting the one-byte payload `X`, the stored file
is named by its content hash. -/
theorem claim6_witness :
    ("58", [88]) ∈ (runOps initState
        [Op.opConsignmentPost pBlind (some ("u1", [88]))]).consignmentFiles ∧
    "58" = genHashFromFile [88] :=
  ⟨by decide,
   (claim6_content_addressed_storage [Op.opConsignmentPost pBlind (some ("u1", [88]))]
      _ rfl).1 ("58", [88]) (by decide)⟩

end RgbProxy
